import Mathlib

/-!
Verification of the retrieval-and-learning subsystem of the `dash` data agent.

The repository wires the agent declaratively (`src/da/agent.py`,
`src/dash/slack_agent.py`, `src/app/main.py`); the behavioural core the spec
describes (SQLGuard, VectorStore search, RetrievalOrchestrator,
LearningCapturePolicy, SchemaIntrospector) lives outside `src/`, so those
components are modelled here from the spec.  Scores that the spec gives as
floats in [0,1] are represented in per-mille units (naturals in [0,1000]);
thresholds and weights scale accordingly (0.92 -> 920, 0.7/0.3 -> 700/300).
-/

namespace Dash

/-! ### Text normalisation utilities -/

/-- ASCII lower-casing of a character. -/
def lowerChar (c : Char) : Char :=
  if 65 ≤ c.toNat ∧ c.toNat ≤ 90 then Char.ofNat (c.toNat + 32) else c

/-- Whitespace test (ASCII control range and space). -/
def isSpaceChar (c : Char) : Bool := c.toNat ≤ 32

/-- Split a character list into whitespace-separated words (accumulator form). -/
def splitWordsAux : List Char → List Char → List (List Char)
  | [], acc => if acc.isEmpty then [] else [acc.reverse]
  | c :: cs, acc =>
    if isSpaceChar c then
      if acc.isEmpty then splitWordsAux cs [] else acc.reverse :: splitWordsAux cs []
    else splitWordsAux cs (c :: acc)

/-- Lower-cased word sequence of a string: the case/whitespace-insensitive
normal form used for title comparison and lexical scoring. -/
def strWords (s : String) : List (List Char) :=
  splitWordsAux (s.data.map lowerChar) []

/-- Case/whitespace-insensitive normal form of a title. -/
def normTitle (s : String) : List (List Char) := strWords s

/-! ### SQLGuard

Modelled from the spec: `validate(raw_sql) -> SQLStatement | fails(UnsafeQuery)`
(§4.5).  SQL text is modelled at token level: words, whitespace, numbers, `*`
and comments.  Comment obfuscation of a verb (`DE/**/LETE`) is two word tokens
separated only by a comment token; comment stripping re-joins them, so the
verb check still sees the verb. -/

/-- A lexical token of a SQL statement. -/
inductive SqlTok
  | word (w : String)
  | star
  | num (n : Nat)
  | comment (s : String)
  | space
  deriving DecidableEq

/-- Emit a pending word fragment, if any. -/
def flushWord : Option String → List SqlTok
  | some w => [.word w]
  | none => []

/-- Remove comment and whitespace tokens; word fragments separated only by
comments are re-joined (so a mutating verb cannot hide behind comment
obfuscation), while whitespace ends the current word. -/
def stripCommentsAux (pending : Option String) : List SqlTok → List SqlTok
  | [] => flushWord pending
  | .comment _ :: rest => stripCommentsAux pending rest
  | .space :: rest => flushWord pending ++ stripCommentsAux none rest
  | .word b :: rest => stripCommentsAux (some (pending.getD "" ++ b)) rest
  | .star :: rest => flushWord pending ++ (.star :: stripCommentsAux none rest)
  | .num n :: rest => flushWord pending ++ (.num n :: stripCommentsAux none rest)

/-- Comment-and-whitespace-free view of a statement. -/
def stripComments (toks : List SqlTok) : List SqlTok :=
  stripCommentsAux none toks

/-- The six mutating verbs the guard rejects, as lower-case character lists. -/
def mutatingVerbs : List (List Char) :=
  ["insert", "update", "delete", "drop", "alter", "truncate"].map String.data

/-- Case-insensitive verb occurrence over a (comment-free) token list. -/
def hasVerbTok (toks : List SqlTok) : Bool :=
  toks.any fun t =>
    match t with
    | .word w => mutatingVerbs.contains (w.data.map lowerChar)
    | _ => false

/-- Wildcard (`*`) occurrence over a token list. -/
def hasStarTok (toks : List SqlTok) : Bool :=
  toks.any fun t => t = SqlTok.star

/-- A statement contains a mutating verb, regardless of case or comment
obfuscation, when the verb appears after comment stripping. -/
def hasMutatingVerb (toks : List SqlTok) : Bool :=
  hasVerbTok (stripComments toks)

/-- A statement selects a wildcard column when `*` survives comment
stripping. -/
def hasWildcard (toks : List SqlTok) : Bool :=
  hasStarTok (stripComments toks)

/-- Row limit declared by the statement: the number following a `limit`
keyword, if any. -/
def findLimit : List SqlTok → Option Nat
  | [] => none
  | .word w :: .num n :: rest =>
    if w.data.map lowerChar = "limit".data then some n else findLimit (.num n :: rest)
  | _ :: rest => findLimit rest

/-- The head of the (comment-free) statement is the `select` keyword. -/
def headIsSelect (toks : List SqlTok) : Bool :=
  match toks with
  | .word w :: _ => w.data.map lowerChar = "select".data
  | _ => false

/-- The statement value SQLGuard returns on success (spec §3: ephemeral,
`declared_intent` is always `select`). -/
structure SQLStatement where
  toks : List SqlTok
  rowLimit : Nat
  deriving DecidableEq

/-- SQLGuard's failure. -/
inductive GuardError
  | unsafeQuery
  deriving DecidableEq

instance {ε α : Type} [DecidableEq ε] [DecidableEq α] : DecidableEq (Except ε α)
  | .error e, .error f => decidable_of_iff (e = f) (by simp)
  | .error _, .ok _ => isFalse (by simp)
  | .ok _, .error _ => isFalse (by simp)
  | .ok x, .ok y => decidable_of_iff (x = y) (by simp)

/-- The configured row-limit ceiling (spec default 50). -/
def rowLimitCeiling : Nat := 50

/-- Modelled from the spec: SQLGuard's `validate` (§4.5).  Strips comments,
rejects mutating verbs and wildcard columns with `UnsafeQuery`, requires a
leading `select`, and injects or clamps the `LIMIT` to the ceiling. -/
def validate (ceiling : Nat) (raw : List SqlTok) : Except GuardError SQLStatement :=
  let clean := stripComments raw
  if hasVerbTok clean || hasStarTok clean then
    .error .unsafeQuery
  else if headIsSelect clean then
    match findLimit clean with
    | some n => .ok ⟨clean, min n ceiling⟩
    | none => .ok ⟨clean, ceiling⟩
  else .error .unsafeQuery

end Dash

namespace Dash

/-! ### C1 -/

/-- C1: every statement accepted by SQLGuard's `validate` contains no mutating
verb (case- and comment-obfuscation-insensitively) and no wildcard column, and
its row limit does not exceed the configured ceiling (default 50); any
statement containing a mutating verb or a wildcard is rejected with
`UnsafeQuery`. -/
theorem sqlguard_validate_safe :
    (∀ raw st, validate rowLimitCeiling raw = .ok st →
      hasVerbTok st.toks = false ∧ hasStarTok st.toks = false ∧
      st.rowLimit ≤ rowLimitCeiling) ∧
    (∀ raw, hasMutatingVerb raw = true ∨ hasWildcard raw = true →
      validate rowLimitCeiling raw = .error .unsafeQuery) := by
  constructor
  · intro raw st h
    simp only [validate] at h
    by_cases hv : hasVerbTok (stripComments raw) || hasStarTok (stripComments raw)
    · simp [hv] at h
    · simp only [if_neg hv] at h
      rw [Bool.or_eq_true] at hv
      push_neg at hv
      obtain ⟨hv1, hv2⟩ := hv
      simp only [Bool.not_eq_true] at hv1 hv2
      by_cases hsel : headIsSelect (stripComments raw)
      · simp only [if_pos hsel] at h
        cases hfl : findLimit (stripComments raw) with
        | none =>
          rw [hfl] at h
          simp only [Except.ok.injEq] at h
          subst h
          exact ⟨hv1, hv2, le_refl _⟩
        | some n =>
          rw [hfl] at h
          simp only [Except.ok.injEq] at h
          subst h
          exact ⟨hv1, hv2, min_le_right _ _⟩
      · simp [hsel] at h
  · intro raw hbad
    have hor : (hasVerbTok (stripComments raw) || hasStarTok (stripComments raw)) = true := by
      rcases hbad with hb | hb
      · unfold hasMutatingVerb at hb; simp [hb]
      · unfold hasWildcard at hb; simp [hb]
    simp only [validate]
    rw [if_pos hor]

/-! ### LearningStore and its dedup-replace write

Modelled from the spec: LearningItem (§3), the dedup check of
LearningCapturePolicy (§4.4: a new item whose title is similar to an existing
one *replaces* it, by id, rather than appending) and `StoreWriteConflict`
resolution (§7: last-writer-wins on `created_at`).  Title similarity at or
above the threshold is modelled by equality of the case/whitespace-insensitive
normal forms (identical normalised titles are the certainly-similar case the
claims quantify over; the spec leaves the metric tunable). -/

structure LearningItem where
  id : Nat
  title : String
  learning : String
  context : String
  tags : List String
  created_at : Nat
  fingerprint : List Int
  deriving DecidableEq

/-- Dedup-key match between two titles. -/
def titleMatch (a b : String) : Bool :=
  decide (normTitle a = normTitle b)

/-- Modelled from the spec: a LearningStore write.  If an existing item
matches the dedup key, the new item replaces it in place (keeping the old
id), except that an older `created_at` never overwrites a newer one
(last-writer-wins); otherwise the item is appended. -/
def writeLearning (store : List LearningItem) (it : LearningItem) : List LearningItem :=
  if store.any fun old => titleMatch old.title it.title then
    store.map fun old =>
      if titleMatch old.title it.title then
        if old.created_at ≤ it.created_at then { it with id := old.id } else old
      else old
  else store ++ [it]

/-- Store invariant: no two items share a normalised title. -/
def InvL (s : List LearningItem) : Prop :=
  s.Pairwise fun a b => normTitle a.title ≠ normTitle b.title

instance (s : List LearningItem) : Decidable (InvL s) := by
  unfold InvL; infer_instance

/-- Number of items whose title normalises to `t`. -/
def countTitle (s : List LearningItem) (t : List (List Char)) : Nat :=
  (s.filter fun x => decide (normTitle x.title = t)).length

/-- The replacement function of `writeLearning` preserves each item's
normalised title. -/
lemma writeLearning_mapkey (it old : LearningItem) :
    normTitle (if titleMatch old.title it.title then
        (if old.created_at ≤ it.created_at then { it with id := old.id } else old)
      else old).title = normTitle old.title := by
  by_cases h : titleMatch old.title it.title
  · have hkey : normTitle old.title = normTitle it.title := of_decide_eq_true h
    by_cases h2 : old.created_at ≤ it.created_at
    · simp [h, h2, hkey]
    · simp [h, h2]
  · simp [h]

/-- `writeLearning` preserves the unique-normalised-title invariant. -/
lemma writeLearning_inv (s : List LearningItem) (it : LearningItem) (h : InvL s) :
    InvL (writeLearning s it) := by
  unfold writeLearning
  by_cases hany : s.any fun old => titleMatch old.title it.title
  · rw [if_pos hany]
    unfold InvL
    rw [List.pairwise_map]
    refine h.imp ?_
    intro a b hne
    rw [writeLearning_mapkey it a, writeLearning_mapkey it b]
    exact hne
  · rw [if_neg hany]
    unfold InvL
    rw [List.pairwise_append]
    refine ⟨h, List.pairwise_singleton _ _, ?_⟩
    intro a ha b hb
    simp only [List.mem_singleton] at hb
    subst hb
    intro heq
    apply hany
    rw [List.any_eq_true]
    exact ⟨a, ha, decide_eq_true heq⟩

/-- Under the invariant, at most one stored item matches a given key. -/
lemma countTitle_le_one (s : List LearningItem) (t : List (List Char)) (h : InvL s) :
    countTitle s t ≤ 1 := by
  induction s with
  | nil => simp [countTitle]
  | cons a rest ih =>
    rw [InvL, List.pairwise_cons] at h
    obtain ⟨ha, hrest⟩ := h
    unfold countTitle
    by_cases hm : normTitle a.title = t
    · have hnil : rest.filter (fun x => decide (normTitle x.title = t)) = [] := by
        rw [List.filter_eq_nil_iff]
        intro b hb hbt
        have hbt' : normTitle b.title = t := of_decide_eq_true hbt
        exact ha b hb (hm.trans hbt'.symm)
      simp [List.filter_cons, hm, hnil]
    · simp only [List.filter_cons, decide_eq_true_eq, if_neg hm]
      exact ih hrest

/-- Under the invariant, a write leaves exactly one item under the written
title's key. -/
lemma countTitle_writeLearning (s : List LearningItem) (it : LearningItem) (h : InvL s) :
    countTitle (writeLearning s it) (normTitle it.title) = 1 := by
  have hle := countTitle_le_one (writeLearning s it) (normTitle it.title)
    (writeLearning_inv s it h)
  have hge : 1 ≤ countTitle (writeLearning s it) (normTitle it.title) := by
    unfold countTitle writeLearning
    by_cases hany : s.any fun old => titleMatch old.title it.title
    · rw [if_pos hany]
      rw [List.any_eq_true] at hany
      obtain ⟨x, hx, hxm⟩ := hany
      have hxkey : normTitle x.title = normTitle it.title := of_decide_eq_true hxm
      rw [List.filter_map]
      have hmem : x ∈ s.filter ((fun y => decide (normTitle y.title = normTitle it.title)) ∘
          fun old => if titleMatch old.title it.title then
            (if old.created_at ≤ it.created_at then { it with id := old.id } else old)
          else old) := by
        rw [List.mem_filter]
        refine ⟨hx, ?_⟩
        simp only [Function.comp]
        rw [writeLearning_mapkey it x]
        exact decide_eq_true hxkey
      have : 0 < (s.filter ((fun y => decide (normTitle y.title = normTitle it.title)) ∘
          fun old => if titleMatch old.title it.title then
            (if old.created_at ≤ it.created_at then { it with id := old.id } else old)
          else old)).length := List.length_pos.mpr (List.ne_nil_of_mem hmem)
      simpa using this
    · rw [if_neg hany]
      rw [List.filter_append]
      have : it ∈ [it].filter fun x => decide (normTitle x.title = normTitle it.title) := by
        simp
      have hpos : 0 < ([it].filter fun x =>
          decide (normTitle x.title = normTitle it.title)).length :=
        List.length_pos.mpr (List.ne_nil_of_mem this)
      rw [List.length_append]
      omega
  omega

/-- Sequences of writes preserve the invariant. -/
lemma foldl_writeLearning_inv (its : List LearningItem) :
    ∀ s, InvL s → InvL (its.foldl writeLearning s) := by
  induction its with
  | nil => intro s h; simpa using h
  | cons a rest ih =>
    intro s h
    exact ih (writeLearning s a) (writeLearning_inv s a h)

/-! ### VectorStore

Modelled from the spec: the VectorStore contract (§4.1):
`search(query_text, k, search_mode) -> ordered_sequence<QueryResult>` of
length at most `k`, descending score, hybrid score a weighted sum (defaults
0.7 vector / 0.3 lexical, here 700/300 per mille), ties broken by recency,
and a degraded lexical-only fallback when the embedding function is
unavailable.  The opaque embedding function is a parameter; vector similarity
is an executable stand-in on embedding vectors. -/

structure StoredItem where
  id : Nat
  text : String
  embedding : List Int
  created_at : Nat
  deriving DecidableEq

/-- Which store a result came from (spec §3, QueryResult.store_origin). -/
inductive StoreOrigin
  | knowledge
  | learning
  deriving DecidableEq

inductive SearchMode
  | vector
  | lexical
  | hybrid
  deriving DecidableEq

/-- Ephemeral search result (spec §3); score in per-mille units. -/
structure QueryResult where
  itemId : Nat
  text : String
  origin : StoreOrigin
  score : Nat
  created_at : Nat
  degraded : Bool
  deriving DecidableEq

/-- Sum of absolute coordinate differences of two embedding vectors. -/
def absDiffSum : List Int → List Int → Nat
  | [], ys => (ys.map Int.natAbs).sum
  | x :: xs, [] => x.natAbs + absDiffSum xs []
  | x :: xs, y :: ys => (x - y).natAbs + absDiffSum xs ys

/-- Executable stand-in for the opaque vector-similarity score, in [0,1000]:
closer vectors score higher. -/
def vecScore (u v : List Int) : Nat :=
  1000 / (1 + absDiffSum u v)

/-- Lexical match score in [0,1000]: the fraction of distinct query words
occurring in the text. -/
def lexScore (q t : String) : Nat :=
  let qs := (strWords q).dedup
  if qs.length = 0 then 0
  else (1000 * (qs.filter fun w => (strWords t).contains w).length) / qs.length

/-- Hybrid weight of the vector-similarity score (spec default 0.7). -/
def hybridWeightVec : Nat := 700

/-- Hybrid weight of the lexical match score (spec default 0.3). -/
def hybridWeightLex : Nat := 300

/-- Score of one stored item under a search mode; with no embedding function
available every mode falls back to the lexical score. -/
def scoreItem (embed : Option (String → List Int)) (mode : SearchMode) (q : String)
    (it : StoredItem) : Nat :=
  match mode, embed with
  | .lexical, _ => lexScore q it.text
  | .vector, some e => vecScore (e q) it.embedding
  | .hybrid, some e =>
    (hybridWeightVec * vecScore (e q) it.embedding + hybridWeightLex * lexScore q it.text) / 1000
  | _, none => lexScore q it.text

/-- Result ranking: descending score, ties broken by recency (newer first). -/
def rankRelP (a b : QueryResult) : Prop :=
  b.score < a.score ∨ (a.score = b.score ∧ b.created_at ≤ a.created_at)

instance : DecidableRel rankRelP := fun a b => by
  unfold rankRelP
  exact inferInstance

instance : IsTotal QueryResult rankRelP :=
  ⟨by intro a b; unfold rankRelP; omega⟩

instance : IsTrans QueryResult rankRelP :=
  ⟨by intro a b c; unfold rankRelP; omega⟩

/-- What a search call returns: the ranked results plus the degraded flag. -/
structure SearchOutcome where
  results : List QueryResult
  degraded : Bool
  deriving DecidableEq

/-- Modelled from the spec: `VectorStore.search` (§4.1).  Scores every stored
item, ranks by descending score with recency tie-break, truncates to `k`;
when the embedding function is unavailable it does not fail but degrades to
lexical-only scoring and flags the results. -/
def search (embed : Option (String → List Int)) (orig : StoreOrigin)
    (store : List StoredItem) (q : String) (k : Nat) (mode : SearchMode) : SearchOutcome :=
  let deg := embed.isNone && decide (mode ≠ SearchMode.lexical)
  let scored := store.map fun it =>
    QueryResult.mk it.id it.text orig (scoreItem embed mode q it) it.created_at deg
  ⟨(List.insertionSort rankRelP scored).take k, deg⟩

/-- Search results are a prefix of the full ranking: each result comes from a
stored item with the mode's score. -/
lemma search_mem {embed orig store q k mode} {r : QueryResult}
    (h : r ∈ (search embed orig store q k mode).results) :
    ∃ it ∈ store, r = QueryResult.mk it.id it.text orig (scoreItem embed mode q it)
      it.created_at (embed.isNone && decide (mode ≠ SearchMode.lexical)) := by
  unfold search at h
  have h2 := List.take_subset _ _ h
  have h3 := (List.perm_insertionSort rankRelP _).mem_iff.mp h2
  obtain ⟨it, hit, heq⟩ := List.mem_map.mp h3
  exact ⟨it, hit, heq.symm⟩

/-- Search results are ranked: descending score with recency tie-break. -/
lemma search_sorted (embed orig store q k mode) :
    ((search embed orig store q k mode).results).Pairwise rankRelP := by
  unfold search
  exact (List.sorted_insertionSort rankRelP _).sublist (List.take_sublist _ _)

/-! ### C6 -/

/-- C6: for every embedding function, store state, query and `k`,
`VectorStore.search` returns at most `k` results ordered by descending score
with ties broken by recency (newer first); in hybrid mode each result's score
is the weighted sum (700/1000 vector, 300/1000 lexical) of the vector
similarity and lexical scores of its stored item. -/
theorem vectorstore_search_contract :
    (∀ (e : String → List Int) orig (store : List StoredItem) q k mode,
      (search (some e) orig store q k mode).results.length ≤ k ∧
      (search (some e) orig store q k mode).results.Pairwise rankRelP) ∧
    (∀ (e : String → List Int) orig (store : List StoredItem) q k,
      ∀ r ∈ (search (some e) orig store q k .hybrid).results,
        ∃ it ∈ store, r.itemId = it.id ∧ r.created_at = it.created_at ∧
          r.score = (hybridWeightVec * vecScore (e q) it.embedding +
            hybridWeightLex * lexScore q it.text) / 1000) := by
  constructor
  · intro e orig store q k mode
    exact ⟨List.length_take_le _ _, search_sorted _ _ _ _ _ _⟩
  · intro e orig store q k r hr
    obtain ⟨it, hit, heq⟩ := search_mem hr
    subst heq
    exact ⟨it, hit, rfl, rfl, rfl⟩

/-- Witness for C6: with a one-item store, the single result carries the
hybrid weighted-sum score. -/
theorem vectorstore_search_contract_witness :
    ∃ it ∈ [StoredItem.mk 1 "wins" [2] 5],
      (QueryResult.mk 1 "wins" StoreOrigin.knowledge 1000 5 false).itemId = it.id ∧
      (QueryResult.mk 1 "wins" StoreOrigin.knowledge 1000 5 false).created_at = it.created_at ∧
      (QueryResult.mk 1 "wins" StoreOrigin.knowledge 1000 5 false).score =
        (hybridWeightVec * vecScore ((fun _ => [2]) "wins") it.embedding +
          hybridWeightLex * lexScore "wins" it.text) / 1000 :=
  vectorstore_search_contract.2 (fun _ => [2]) StoreOrigin.knowledge
    [StoredItem.mk 1 "wins" [2] 5] "wins" 3
    (QueryResult.mk 1 "wins" StoreOrigin.knowledge 1000 5 false) (by decide)

/-! ### C7 -/

/-- C7: when the embedding function is unavailable, `search` still returns an
outcome (it cannot fail): the outcome is flagged degraded for any
embedding-dependent mode, every result is scored lexically from a stored item
and carries the degraded flag; with an embedding function available the
outcome is never flagged degraded, so the unavailable-embedding fallback is
the only degraded path. -/
theorem embedding_unavailable_degraded :
    (∀ orig (store : List StoredItem) q k mode, mode ≠ .lexical →
      (search none orig store q k mode).degraded = true) ∧
    (∀ orig (store : List StoredItem) q k mode,
      ∀ r ∈ (search none orig store q k mode).results,
        r.degraded = (search none orig store q k mode).degraded ∧
        ∃ it ∈ store, r.itemId = it.id ∧ r.score = lexScore q it.text) ∧
    (∀ (e : String → List Int) orig (store : List StoredItem) q k mode,
      (search (some e) orig store q k mode).degraded = false) := by
  refine ⟨?_, ?_, ?_⟩
  · intro orig store q k mode hmode
    unfold search
    simp [hmode]
  · intro orig store q k mode r hr
    obtain ⟨it, hit, heq⟩ := search_mem hr
    subst heq
    refine ⟨by unfold search; rfl, it, hit, rfl, ?_⟩
    cases mode <;> rfl
  · intro e orig store q k mode
    unfold search
    rfl

/-- Witness for C7: a hybrid search without an embedding function over a
one-item store is degraded and lexically scored. -/
theorem embedding_unavailable_degraded_witness :
    (search none StoreOrigin.learning [StoredItem.mk 3 "date gotcha" [7] 9]
      "date" 2 SearchMode.hybrid).degraded = true ∧
    ((QueryResult.mk 3 "date gotcha" StoreOrigin.learning 1000 9 true).degraded =
      (search none StoreOrigin.learning [StoredItem.mk 3 "date gotcha" [7] 9]
        "date" 2 SearchMode.hybrid).degraded ∧
      ∃ it ∈ [StoredItem.mk 3 "date gotcha" [7] 9],
        (QueryResult.mk 3 "date gotcha" StoreOrigin.learning 1000 9 true).itemId = it.id ∧
        (QueryResult.mk 3 "date gotcha" StoreOrigin.learning 1000 9 true).score =
          lexScore "date" it.text) :=
  ⟨embedding_unavailable_degraded.1 StoreOrigin.learning
      [StoredItem.mk 3 "date gotcha" [7] 9] "date" 2 SearchMode.hybrid (by decide),
    embedding_unavailable_degraded.2.1 StoreOrigin.learning
      [StoredItem.mk 3 "date gotcha" [7] 9] "date" 2 SearchMode.hybrid
      (QueryResult.mk 3 "date gotcha" StoreOrigin.learning 1000 9 true) (by decide)⟩

/-! ### C2 -/

/-- C2: after any sequence of writes the LearningStore never contains two
items with the same normalised title (so in particular no two items that are
both title-normal-form-equal and fingerprint-similar); a second write whose
title matches an existing item's key replaces it rather than appending, so
exactly one item remains under that title and the store does not grow. -/
theorem learning_store_dedup :
    (∀ (s : List LearningItem) (its : List LearningItem),
      InvL s → InvL (its.foldl writeLearning s)) ∧
    (∀ (s : List LearningItem) (it1 it2 : LearningItem),
      InvL s → normTitle it2.title = normTitle it1.title →
      countTitle (writeLearning (writeLearning s it1) it2) (normTitle it1.title) = 1 ∧
      (writeLearning (writeLearning s it1) it2).length = (writeLearning s it1).length) := by
  constructor
  · intro s its h
    exact foldl_writeLearning_inv its s h
  · intro s it1 it2 h hkey
    have hinv1 : InvL (writeLearning s it1) := writeLearning_inv s it1 h
    constructor
    · have := countTitle_writeLearning (writeLearning s it1) it2 hinv1
      rwa [hkey] at this
    · have hc1 := countTitle_writeLearning s it1 h
      have hexists : ∃ x ∈ writeLearning s it1,
          decide (normTitle x.title = normTitle it1.title) = true := by
        unfold countTitle at hc1
        have hne : (writeLearning s it1).filter
            (fun x => decide (normTitle x.title = normTitle it1.title)) ≠ [] := by
          intro hnil
          rw [hnil] at hc1
          simp at hc1
        obtain ⟨x, hx⟩ := List.exists_mem_of_ne_nil _ hne
        rw [List.mem_filter] at hx
        exact ⟨x, hx.1, hx.2⟩
      obtain ⟨x, hx, hxkey⟩ := hexists
      have hany : (writeLearning s it1).any (fun old => titleMatch old.title it2.title) = true := by
        rw [List.any_eq_true]
        refine ⟨x, hx, ?_⟩
        unfold titleMatch
        have : normTitle x.title = normTitle it2.title := by
          rw [hkey]; exact of_decide_eq_true hxkey
        exact decide_eq_true this
      conv_lhs => rw [writeLearning, if_pos hany]
      rw [List.length_map]

/-- Witness for C2: writing two items whose titles normalise identically
("Race  Wins Date" then "race wins  date") into an empty store leaves exactly
one item under that key and does not grow the store. -/
theorem learning_store_dedup_witness :
    countTitle
      (writeLearning
        (writeLearning [] ⟨1, "Race  Wins Date", "a", "c", [], 10, [1]⟩)
        ⟨2, "race wins  date", "b", "d", [], 20, [1]⟩)
      (normTitle (LearningItem.mk 1 "Race  Wins Date" "a" "c" [] 10 [1]).title) = 1 ∧
    (writeLearning
      (writeLearning [] ⟨1, "Race  Wins Date", "a", "c", [], 10, [1]⟩)
      ⟨2, "race wins  date", "b", "d", [], 20, [1]⟩).length =
    (writeLearning [] ⟨1, "Race  Wins Date", "a", "c", [], 10, [1]⟩).length :=
  learning_store_dedup.2 []
    ⟨1, "Race  Wins Date", "a", "c", [], 10, [1]⟩
    ⟨2, "race wins  date", "b", "d", [], 20, [1]⟩
    (by unfold InvL; exact List.Pairwise.nil)
    (by decide)

/-! ### KnowledgeStore, LearningCapturePolicy and the retrieval pipeline

Modelled from the spec: KnowledgeItem (§3, append-only store),
`capture(event, payload)` (§4.4) and `retrieve(question_text)` (§4.2). -/

inductive KSource
  | seed
  | agent_saved
  deriving DecidableEq

structure KnowledgeItem where
  id : Nat
  text : String
  embedding : List Int
  tags : List String
  created_at : Nat
  source : KSource
  deriving DecidableEq

/-- Modelled from the spec: the append-only KnowledgeStore write. -/
def writeKnowledge (store : List KnowledgeItem) (it : KnowledgeItem) : List KnowledgeItem :=
  store ++ [it]

/-- The two shared stores (spec §5). -/
structure Stores where
  knowledge : List KnowledgeItem
  learnings : List LearningItem
  deriving DecidableEq

/-- Capture events and their payloads (spec §4.4). -/
inductive CaptureEvent
  | error_fixed (failing : String) (err : String) (fix : String)
  | user_corrected (prior : String) (correction : String) (isBusiness : Bool)
  | query_validated (sql : String) (description : String) (tags : List String)
  deriving DecidableEq

/-- LearningItem built on `error_fixed`: title summarises the root cause (the
summariser is external, modelled as the error text), `learning` is the fix,
`context` the failing statement. -/
def mkErrorFixedItem (newId now : Nat) (failing err fix : String) : LearningItem :=
  ⟨newId, err, fix, failing, ["error_fix"], now, []⟩

/-- LearningItem built on `user_corrected`; tagged `business` when it concerns
domain semantics. -/
def mkUserCorrectedItem (newId now : Nat) (prior correction : String)
    (isBusiness : Bool) : LearningItem :=
  ⟨newId, prior, correction, prior, if isBusiness then ["business"] else [], now, []⟩

/-- KnowledgeItem built on `query_validated`: the curated validated query. -/
def mkValidatedQueryItem (newId now : Nat) (sql description : String)
    (tags : List String) : KnowledgeItem :=
  ⟨newId, description ++ ": " ++ sql, [], tags, now, .agent_saved⟩

/-- Modelled from the spec: LearningCapturePolicy's `capture` (§4.4).
`error_fixed` and `user_corrected` construct a LearningItem and write it to
the LearningStore (through the dedup-replace write); `query_validated` writes
a curated KnowledgeItem to the KnowledgeStore. -/
def capture (st : Stores) (newId now : Nat) : CaptureEvent → Stores
  | .error_fixed failing err fix =>
    { st with learnings :=
        writeLearning st.learnings (mkErrorFixedItem newId now failing err fix) }
  | .user_corrected prior correction isBusiness =>
    { st with learnings :=
        writeLearning st.learnings (mkUserCorrectedItem newId now prior correction isBusiness) }
  | .query_validated sql description tags =>
    { st with knowledge :=
        writeKnowledge st.knowledge (mkValidatedQueryItem newId now sql description tags) }

/-- Per-store result count `k` for the knowledge store (spec default 5). -/
def knowledgeK : Nat := 5

/-- Per-store result count `k` for the learnings store (spec default 5). -/
def learningsK : Nat := 5

/-- Cap on the merged result sequence (spec default 8). -/
def mergedCap : Nat := 8

/-- Dedup threshold on text similarity (spec default 0.92, per-mille 920). -/
def dedupThreshold : Nat := 920

/-- Text similarity in [0,1000]: word-set Jaccard index of the two texts. -/
def textSim (a b : String) : Nat :=
  let wa := (strWords a).dedup
  let wb := (strWords b).dedup
  let inter := wa.filter fun w => wb.contains w
  let uni := (wa ++ wb).dedup
  if uni.length = 0 then 1000 else (1000 * inter.length) / uni.length

/-- Drop every result whose text similarity to a higher-scored retained
result exceeds the dedup threshold (the input is already ranked, so earlier
results are the higher-scored ones). -/
def dedupResults : List QueryResult → List QueryResult
  | [] => []
  | r :: rest =>
    r :: dedupResults (rest.filter fun x => decide (textSim r.text x.text ≤ dedupThreshold))
termination_by l => l.length
decreasing_by
  simp only [List.length_cons]
  exact Nat.lt_succ_of_le (List.length_filter_le _ _)

lemma dedupResults_sublist : ∀ l : List QueryResult, (dedupResults l).Sublist l := by
  intro l
  induction l using dedupResults.induct with
  | case1 => simp [dedupResults]
  | case2 r rest ih =>
    rw [dedupResults]
    exact List.Sublist.cons₂ r (ih.trans (List.filter_sublist rest))

lemma dedupResults_pairwise : ∀ l : List QueryResult,
    (dedupResults l).Pairwise fun a b => textSim a.text b.text ≤ dedupThreshold := by
  intro l
  induction l using dedupResults.induct with
  | case1 => simp [dedupResults]
  | case2 r rest ih =>
    rw [dedupResults]
    refine List.Pairwise.cons ?_ ih
    intro b hb
    have hb2 := (dedupResults_sublist _).subset hb
    have := List.of_mem_filter hb2
    exact of_decide_eq_true this

/-- Modelled from the spec: `retrieve(question_text)` (§4.2).  Searches both
stores hybridly with their own `k`, merges the two ranked sequences by score
(ties by recency), caps the merged output, and deduplicates near-identical
texts keeping the higher-scored one. -/
def retrieve (embed : Option (String → List Int))
    (knowledge learnings : List StoredItem) (q : String) : List QueryResult :=
  let kr := search embed .knowledge knowledge q knowledgeK .hybrid
  let lr := search embed .learning learnings q learningsK .hybrid
  dedupResults ((List.insertionSort rankRelP (kr.results ++ lr.results)).take mergedCap)

/-- Knowledge item as seen by the vector store. -/
def kToStored (k : KnowledgeItem) : StoredItem :=
  ⟨k.id, k.text, k.embedding, k.created_at⟩

/-- Learning item as seen by the vector store. -/
def lToStored (l : LearningItem) : StoredItem :=
  ⟨l.id, l.title ++ ": " ++ l.learning, l.fingerprint, l.created_at⟩

/-- Retrieval over the shared store state. -/
def retrieveStores (embed : Option (String → List Int)) (st : Stores) (q : String) :
    List QueryResult :=
  retrieve embed (st.knowledge.map kToStored) (st.learnings.map lToStored) q

/-- One user-facing operation of the core (spec §6). -/
inductive AgentOp
  | opRetrieve (q : String)
  | opCapture (newId now : Nat) (e : CaptureEvent)

/-- What an operation returns. -/
inductive OpOutput
  | results (rs : List QueryResult)
  | captured
  deriving DecidableEq

/-- State-passing semantics of the core's operations: retrieval reads the
stores, capture writes them. -/
def stepOp (embed : Option (String → List Int)) (st : Stores) :
    AgentOp → Stores × OpOutput
  | .opRetrieve q => (st, .results (retrieveStores embed st q))
  | .opCapture newId now e => (capture st newId now e, .captured)

/-! ### C3 -/

/-- C3: `retrieve` has no side effect on any store — stepping the system with
a retrieval leaves the state unchanged — and it is deterministic and
idempotent: running the same query again against the resulting state returns
the same ordered output. -/
theorem retrieve_read_only_idempotent :
    ∀ embed (st : Stores) q,
      (stepOp embed st (.opRetrieve q)).1 = st ∧
      (stepOp embed (stepOp embed st (.opRetrieve q)).1 (.opRetrieve q)).2 =
        (stepOp embed st (.opRetrieve q)).2 := by
  intro embed st q
  exact ⟨rfl, rfl⟩

/-! ### C4 -/

/-- C4: `capture` with `query_validated` writes the constructed item to the
KnowledgeStore and never touches the LearningStore; `capture` with
`error_fixed` constructs a LearningItem and writes it to the LearningStore,
leaving the KnowledgeStore unchanged. -/
theorem capture_routes :
    (∀ (st : Stores) newId now sql description tags,
      (capture st newId now (.query_validated sql description tags)).learnings =
        st.learnings ∧
      (capture st newId now (.query_validated sql description tags)).knowledge =
        writeKnowledge st.knowledge (mkValidatedQueryItem newId now sql description tags)) ∧
    (∀ (st : Stores) newId now failing err fix,
      (capture st newId now (.error_fixed failing err fix)).knowledge = st.knowledge ∧
      (capture st newId now (.error_fixed failing err fix)).learnings =
        writeLearning st.learnings (mkErrorFixedItem newId now failing err fix)) := by
  exact ⟨fun _ _ _ _ _ _ => ⟨rfl, rfl⟩, fun _ _ _ _ _ _ => ⟨rfl, rfl⟩⟩

/-! ### C5 -/

/-- C5: for every question, `retrieve` returns at most the configured cap
(default 8) of results, ordered by descending score with recency tie-break
(the score-merge of the two per-store sequences), and no retained result's
text similarity to a higher-scored retained result exceeds the dedup
threshold (0.92, per-mille 920). -/
theorem retrieve_merge_cap_dedup :
    ∀ embed (knowledge learnings : List StoredItem) q,
      (retrieve embed knowledge learnings q).length ≤ mergedCap ∧
      (retrieve embed knowledge learnings q).Pairwise rankRelP ∧
      (retrieve embed knowledge learnings q).Pairwise
        (fun a b => textSim a.text b.text ≤ dedupThreshold) := by
  intro embed knowledge learnings q
  refine ⟨?_, ?_, dedupResults_pairwise _⟩
  · calc (retrieve embed knowledge learnings q).length
        ≤ ((List.insertionSort rankRelP
            ((search embed .knowledge knowledge q knowledgeK .hybrid).results ++
             (search embed .learning learnings q learningsK .hybrid).results)).take
            mergedCap).length :=
          (dedupResults_sublist _).length_le
      _ ≤ mergedCap := List.length_take_le _ _
  · have hs : (retrieve embed knowledge learnings q).Sublist
        (List.insertionSort rankRelP
          ((search embed .knowledge knowledge q knowledgeK .hybrid).results ++
           (search embed .learning learnings q learningsK .hybrid).results)) :=
      (dedupResults_sublist _).trans (List.take_sublist _ _)
    exact List.Pairwise.sublist hs (List.sorted_insertionSort rankRelP _)

/-! ### Concurrent captures on one dedup key (C9 support) -/

/-- When nothing in the store matches the new item's key, a write appends. -/
lemma writeLearning_nomatch (s : List LearningItem) (it : LearningItem)
    (h : ∀ x ∈ s, normTitle x.title ≠ normTitle it.title) :
    writeLearning s it = s ++ [it] := by
  unfold writeLearning
  rw [if_neg]
  intro hany
  rw [List.any_eq_true] at hany
  obtain ⟨x, hx, hm⟩ := hany
  exact h x hx (of_decide_eq_true hm)

/-- Writing into a store whose only key match is its last element replaces
exactly that element, resolved by last-writer-wins on `created_at`. -/
lemma writeLearning_append_match (s : List LearningItem) (o it : LearningItem)
    (hs : ∀ x ∈ s, normTitle x.title ≠ normTitle it.title)
    (ho : normTitle o.title = normTitle it.title) :
    writeLearning (s ++ [o]) it =
      s ++ [if o.created_at ≤ it.created_at then { it with id := o.id } else o] := by
  unfold writeLearning
  have hany : (s ++ [o]).any (fun old => titleMatch old.title it.title) = true := by
    rw [List.any_eq_true]
    exact ⟨o, by simp, decide_eq_true ho⟩
  rw [if_pos hany, List.map_append]
  congr 1
  · have hid : ∀ x ∈ s,
        (if titleMatch x.title it.title then
          (if x.created_at ≤ it.created_at then { it with id := x.id } else x)
        else x) = x := by
      intro x hx
      rw [if_neg]
      intro hm
      exact hs x hx (of_decide_eq_true hm)
    exact (List.map_congr_left hid).trans (List.map_id s)
  · simp [titleMatch, ho]

/-! ### C9 -/

/-- C9: two captures targeting the same dedup key (identical normalised
title) with different payloads, performed in either interleaving order
(capture is atomic per item, spec §5), leave exactly one item under that key,
and it carries the later writer's `learning` text and `created_at`
(last-writer-wins). -/
theorem concurrent_capture_lww :
    ∀ (s : List LearningItem) (it1 it2 : LearningItem),
      InvL s →
      countTitle s (normTitle it1.title) = 0 →
      normTitle it2.title = normTitle it1.title →
      it1.created_at < it2.created_at →
      (countTitle (writeLearning (writeLearning s it1) it2) (normTitle it1.title) = 1 ∧
        ∀ x ∈ writeLearning (writeLearning s it1) it2,
          normTitle x.title = normTitle it1.title →
          x.learning = it2.learning ∧ x.created_at = it2.created_at) ∧
      (countTitle (writeLearning (writeLearning s it2) it1) (normTitle it1.title) = 1 ∧
        ∀ x ∈ writeLearning (writeLearning s it2) it1,
          normTitle x.title = normTitle it1.title →
          x.learning = it2.learning ∧ x.created_at = it2.created_at) := by
  intro s it1 it2 hinv hcnt hkey hca
  have hnone : ∀ x ∈ s, normTitle x.title ≠ normTitle it1.title := by
    intro x hx heq
    unfold countTitle at hcnt
    rw [List.length_eq_zero, List.filter_eq_nil_iff] at hcnt
    exact hcnt x hx (decide_eq_true heq)
  have hnone2 : ∀ x ∈ s, normTitle x.title ≠ normTitle it2.title := by
    intro x hx
    rw [hkey]
    exact hnone x hx
  have hw1 : writeLearning s it1 = s ++ [it1] := writeLearning_nomatch s it1 hnone
  have hw2 : writeLearning s it2 = s ++ [it2] := writeLearning_nomatch s it2 hnone2
  constructor
  · constructor
    · have h1 := countTitle_writeLearning (writeLearning s it1) it2
        (writeLearning_inv s it1 hinv)
      rwa [hkey] at h1
    · intro x hx hxkey
      rw [hw1, writeLearning_append_match s it1 it2 hnone2 hkey.symm,
        if_pos (le_of_lt hca)] at hx
      rw [List.mem_append] at hx
      rcases hx with hx | hx
      · exact absurd hxkey (hnone x hx)
      · rw [List.mem_singleton] at hx
        subst hx
        exact ⟨rfl, rfl⟩
  · constructor
    · exact countTitle_writeLearning (writeLearning s it2) it1
        (writeLearning_inv s it2 hinv)
    · intro x hx hxkey
      rw [hw2, writeLearning_append_match s it2 it1 hnone hkey,
        if_neg (by omega)] at hx
      rw [List.mem_append] at hx
      rcases hx with hx | hx
      · exact absurd hxkey (hnone x hx)
      · rw [List.mem_singleton] at hx
        subst hx
        exact ⟨rfl, rfl⟩

/-- Witness for C9: two writes under the key "pos type", in both orders, into
an empty store; the later `created_at` (20) wins in each order. -/
theorem concurrent_capture_lww_witness :
    (countTitle
        (writeLearning
          (writeLearning [] ⟨1, "pos type", "use int", "c1", [], 10, [1]⟩)
          ⟨2, "POS  TYPE", "use text", "c2", [], 20, [1]⟩)
        (normTitle (LearningItem.mk 1 "pos type" "use int" "c1" [] 10 [1]).title) = 1 ∧
      ∀ x ∈ writeLearning
          (writeLearning [] ⟨1, "pos type", "use int", "c1", [], 10, [1]⟩)
          ⟨2, "POS  TYPE", "use text", "c2", [], 20, [1]⟩,
        normTitle x.title =
          normTitle (LearningItem.mk 1 "pos type" "use int" "c1" [] 10 [1]).title →
        x.learning = (LearningItem.mk 2 "POS  TYPE" "use text" "c2" [] 20 [1]).learning ∧
        x.created_at = (LearningItem.mk 2 "POS  TYPE" "use text" "c2" [] 20 [1]).created_at) ∧
    (countTitle
        (writeLearning
          (writeLearning [] ⟨2, "POS  TYPE", "use text", "c2", [], 20, [1]⟩)
          ⟨1, "pos type", "use int", "c1", [], 10, [1]⟩)
        (normTitle (LearningItem.mk 1 "pos type" "use int" "c1" [] 10 [1]).title) = 1 ∧
      ∀ x ∈ writeLearning
          (writeLearning [] ⟨2, "POS  TYPE", "use text", "c2", [], 20, [1]⟩)
          ⟨1, "pos type", "use int", "c1", [], 10, [1]⟩,
        normTitle x.title =
          normTitle (LearningItem.mk 1 "pos type" "use int" "c1" [] 10 [1]).title →
        x.learning = (LearningItem.mk 2 "POS  TYPE" "use text" "c2" [] 20 [1]).learning ∧
        x.created_at = (LearningItem.mk 2 "POS  TYPE" "use text" "c2" [] 20 [1]).created_at) :=
  concurrent_capture_lww []
    ⟨1, "pos type", "use int", "c1", [], 10, [1]⟩
    ⟨2, "POS  TYPE", "use text", "c2", [], 20, [1]⟩
    (by unfold InvL; exact List.Pairwise.nil)
    (by decide) (by decide) (by decide)

/-! ### SchemaIntrospector

Modelled from the spec: `describe(table_name) -> SchemaDescriptor` (§4.3)
with its TTL-bound cache and coalescing of concurrent callers, as a
transition system for one table: a `request` event is one caller arriving,
`completeFetch` is the in-flight catalog query returning.  `catalogCalls`
counts underlying catalog queries. -/

structure SchemaColumn where
  colName : String
  colType : String
  deriving DecidableEq

/-- Cached, TTL-bound table description (spec §3). -/
structure SchemaDescriptor where
  table_name : String
  columns : List SchemaColumn
  fetched_at : Nat
  deriving DecidableEq

/-- Introspector state for one table. -/
structure IntroState where
  ttl : Nat
  now : Nat
  cache : Option SchemaDescriptor
  inflight : Bool
  waiting : Nat
  catalogCalls : Nat
  deriving DecidableEq

/-- What one caller observes. -/
inductive ReqOutcome
  | cached (d : SchemaDescriptor)
  | awaiting
  | fetchingStarted
  deriving DecidableEq

/-- Modelled from the spec: one `describe` call arriving.  A fresh cache is
served directly; otherwise the caller joins an in-flight catalog query if one
exists, and only if none does a new catalog query start. -/
def request (s : IntroState) : IntroState × ReqOutcome :=
  match s.cache with
  | some d =>
    if s.now < d.fetched_at + s.ttl then (s, .cached d)
    else if s.inflight then ({ s with waiting := s.waiting + 1 }, .awaiting)
    else ({ s with inflight := true, catalogCalls := s.catalogCalls + 1 }, .fetchingStarted)
  | none =>
    if s.inflight then ({ s with waiting := s.waiting + 1 }, .awaiting)
    else ({ s with inflight := true, catalogCalls := s.catalogCalls + 1 }, .fetchingStarted)

/-- The in-flight catalog query returns: the result is cached (stamped with
the current time) and the awaiting callers are released. -/
def completeFetch (s : IntroState) (t : String) (cols : List SchemaColumn) : IntroState :=
  { s with cache := some ⟨t, cols, s.now⟩, inflight := false, waiting := 0 }

/-- `n` concurrent callers arriving back to back (any interleaving of `n`
atomic request events with no completion in between). -/
def requests (s : IntroState) : Nat → IntroState
  | 0 => s
  | n + 1 => requests (request s).1 n

/-- While a catalog query is in flight, a request issues no new one. -/
lemma request_inflight (s : IntroState) (h : s.inflight = true) :
    (request s).1.catalogCalls = s.catalogCalls ∧ (request s).1.inflight = true := by
  unfold request
  rcases hc : s.cache with _ | d
  · simp [h]
  · by_cases hfresh : s.now < d.fetched_at + s.ttl
    · simp [hfresh, h]
    · simp [hfresh, h]

/-- While a catalog query is in flight, any number of concurrent callers
issue no new one. -/
lemma requests_inflight : ∀ (n : Nat) (s : IntroState), s.inflight = true →
    (requests s n).catalogCalls = s.catalogCalls := by
  intro n
  induction n with
  | zero => intro s _; rfl
  | succ n ih =>
    intro s h
    rw [requests]
    obtain ⟨h1, h2⟩ := request_inflight s h
    rw [ih (request s).1 h2, h1]

/-- A single request either issues no catalog query (leaving the in-flight
bit as it was) or issues exactly one and leaves a query in flight. -/
lemma request_dichotomy (s : IntroState) :
    ((request s).1.catalogCalls = s.catalogCalls ∧ (request s).1.inflight = s.inflight) ∨
    ((request s).1.catalogCalls = s.catalogCalls + 1 ∧ (request s).1.inflight = true) := by
  unfold request
  rcases hc : s.cache with _ | d
  · by_cases hi : s.inflight <;> simp [hi]
  · by_cases hfresh : s.now < d.fetched_at + s.ttl
    · simp [hfresh]
    · by_cases hi : s.inflight <;> simp [hfresh, hi]

/-! ### C8 -/

/-- C8: the SchemaIntrospector issues at most one catalog query however many
concurrent callers arrive: `n` concurrent `describe` calls increase the
catalog-query count by at most one; while a query is in flight, callers
coalesce onto it and issue none; and a cache hit within the TTL returns the
cached descriptor without touching the catalog or the state. -/
theorem introspector_coalesce :
    (∀ (s : IntroState) (n : Nat), (requests s n).catalogCalls ≤ s.catalogCalls + 1) ∧
    (∀ (s : IntroState) (n : Nat), s.inflight = true →
      (requests s n).catalogCalls = s.catalogCalls) ∧
    (∀ (s : IntroState) (d : SchemaDescriptor), s.cache = some d →
      s.now < d.fetched_at + s.ttl → request s = (s, .cached d)) := by
  refine ⟨?_, ?_, ?_⟩
  · intro s n
    induction n generalizing s with
    | zero => simp [requests]
    | succ n ih =>
      rw [requests]
      rcases request_dichotomy s with ⟨h1, _⟩ | ⟨h1, h2⟩
      · have := ih (request s).1
        omega
      · have := requests_inflight n (request s).1 h2
        omega
  · intro s n h
    exact requests_inflight n s h
  · intro s d hc hfresh
    unfold request
    rw [hc]
    simp [hfresh]

/-- Witness for C8: a state with a query in flight takes three concurrent
callers without a new catalog query, and a fresh cache entry is served
directly. -/
theorem introspector_coalesce_witness :
    (requests (IntroState.mk 60 100 none true 2 1) 3).catalogCalls =
      (IntroState.mk 60 100 none true 2 1).catalogCalls ∧
    request (IntroState.mk 60 100 (some ⟨"drivers", [⟨"pos", "text"⟩], 80⟩) false 0 1) =
      (IntroState.mk 60 100 (some ⟨"drivers", [⟨"pos", "text"⟩], 80⟩) false 0 1,
        .cached ⟨"drivers", [⟨"pos", "text"⟩], 80⟩) :=
  ⟨introspector_coalesce.2.1 (IntroState.mk 60 100 none true 2 1) 3 (by decide),
    introspector_coalesce.2.2 (IntroState.mk 60 100 (some ⟨"drivers", [⟨"pos", "text"⟩], 80⟩)
      false 0 1) ⟨"drivers", [⟨"pos", "text"⟩], 80⟩ (by decide) (by decide)⟩

/-! ### Agent configuration and the Slack derivation

The agent value and its `deep_copy`-with-update derivation, from
`src/dash/slack_agent.py`.  The base agent module (`dash.agents`) is not in
the repository snapshot, so the base `dash` agent, its `INSTRUCTIONS` and
`base_tools` are modelled from the spec (§9: build a base configuration and
derive new immutable values by an explicit override); the update map applied
here is exactly the one `slack_agent.py` passes. -/

/-- A language-model reference (provider class and model id). -/
inductive ModelRef
  | openAIResponses (id : String)
  | openAIChat (id : String)
  deriving DecidableEq

/-- The toolkits the two agents register. -/
inductive Tool
  | sqlTools
  | reasoningTools
  | saveValidatedQuery
  | introspectSchema
  | mcpTools
  | dalleTools
  | duckDuckGoTools
  | fileGenerationTools
  | slackTools
  deriving DecidableEq

/-- The agent configuration fields the Slack derivation touches or must
preserve. -/
structure Agent where
  agentId : String
  name : String
  model : ModelRef
  instructions : String
  tools : List Tool
  deriving DecidableEq

/-- An update map for `deep_copy`: absent keys keep the base value. -/
structure AgentUpdate where
  name : Option String
  model : Option ModelRef
  instructions : Option String
  tools : Option (List Tool)
  deriving DecidableEq

/-- `deep_copy(update=...)`: returns a fresh agent whose fields come from the
update map where present and from the base otherwise; the base value is not
mutated. -/
def deep_copy (a : Agent) (u : AgentUpdate) : Agent :=
  { agentId := a.agentId
    name := u.name.getD a.name
    model := u.model.getD a.model
    instructions := u.instructions.getD a.instructions
    tools := u.tools.getD a.tools }

/-- Modelled from the spec: the base agent's instruction text (the
`dash.agents` module is not in the snapshot). -/
def INSTRUCTIONS : String :=
  "You are Dash, a self-learning data agent that provides insights, not just query results."

/-- Modelled from the spec: the base agent's toolkits (`dash.agents` is not
in the snapshot; the analogous `da` agent registers these five). -/
def base_tools : List Tool :=
  [.sqlTools, .reasoningTools, .saveValidatedQuery, .introspectSchema, .mcpTools]

/-- Modelled from the spec: the base `dash` agent (`dash.agents` is not in
the snapshot). -/
def dash : Agent :=
  ⟨"dash", "Dash", .openAIResponses "gpt-5.2", INSTRUCTIONS, base_tools⟩

/-- The Slack-specific instruction suffix, from `src/dash/slack_agent.py`. -/
def SLACK_INSTRUCTIONS : String :=
  "\n## Slack Capabilities\n\nYou have additional tools for Slack interactions:\n\n**File Export** — When users ask for data exports:\n- Use `generate_csv_file` for tabular data (query results, comparisons)\n- Use `generate_json_file` for structured data\n- Always include descriptive filenames (e.g., \"hamilton_2019_wins.csv\")\n\n**Image Generation** — When users ask for visualizations or creative images:\n- Use `create_image` to generate images with DALL-E\n- Good for: team logos, race visualizations, infographics\n- Be descriptive in your prompts for best results\n\n**Web Search** — When users ask about recent events or external context:\n- Use `web_search` for current F1 news, driver updates, rule changes\n- Use `search_news` for latest headlines\n- Combine with database queries for comprehensive answers\n\n**Slack** — When asked to share results or notify channels:\n- Use `send_message` to post to channels\n- Use `send_message_thread` to reply in threads\n"

/-- The Slack agent: `dash.deep_copy(update=...)` with the overrides of
`src/dash/slack_agent.py`. -/
def slack_dash : Agent :=
  deep_copy dash
    { name := some "Slack Dash"
      model := some (.openAIChat "gpt-4o")
      instructions := some (INSTRUCTIONS ++ SLACK_INSTRUCTIONS)
      tools := some (base_tools ++ [.dalleTools, .duckDuckGoTools, .fileGenerationTools,
        .slackTools]) }

/-! ### C10 -/

/-- C10: constructing `slack_dash` by `dash.deep_copy` with the update map
yields a new agent whose instructions are the base INSTRUCTIONS with
SLACK_INSTRUCTIONS appended and whose tools are `base_tools` followed by the
four Slack toolkits, while every field of the base `dash` agent is unchanged
(still equal to its defining values); in general `deep_copy` applies an
update only to the returned copy, keeping non-overridden fields of the
base. -/
theorem slack_dash_deep_copy_frame :
    slack_dash.name = "Slack Dash" ∧
    slack_dash.model = .openAIChat "gpt-4o" ∧
    slack_dash.instructions = INSTRUCTIONS ++ SLACK_INSTRUCTIONS ∧
    slack_dash.tools =
      base_tools ++ [.dalleTools, .duckDuckGoTools, .fileGenerationTools, .slackTools] ∧
    slack_dash.agentId = dash.agentId ∧
    dash = ⟨"dash", "Dash", .openAIResponses "gpt-5.2", INSTRUCTIONS, base_tools⟩ ∧
    (∀ (a : Agent) (u : AgentUpdate),
      (deep_copy a u).agentId = a.agentId ∧
      (u.name = none → (deep_copy a u).name = a.name) ∧
      (u.model = none → (deep_copy a u).model = a.model) ∧
      (u.instructions = none → (deep_copy a u).instructions = a.instructions) ∧
      (u.tools = none → (deep_copy a u).tools = a.tools)) := by
  refine ⟨rfl, rfl, rfl, rfl, rfl, rfl, ?_⟩
  intro a u
  refine ⟨rfl, ?_, ?_, ?_, ?_⟩ <;> intro h <;> simp [deep_copy, h]

/-- Witness for C10: the frame part of `deep_copy` at the empty update map on
the base agent, with the emptiness hypotheses discharged. -/
theorem slack_dash_deep_copy_frame_witness :
    (deep_copy dash (AgentUpdate.mk none none none none)).agentId = dash.agentId ∧
    (deep_copy dash (AgentUpdate.mk none none none none)).name = dash.name ∧
    (deep_copy dash (AgentUpdate.mk none none none none)).model = dash.model ∧
    (deep_copy dash (AgentUpdate.mk none none none none)).instructions = dash.instructions ∧
    (deep_copy dash (AgentUpdate.mk none none none none)).tools = dash.tools :=
  ⟨(slack_dash_deep_copy_frame.2.2.2.2.2.2 dash (AgentUpdate.mk none none none none)).1,
    (slack_dash_deep_copy_frame.2.2.2.2.2.2 dash (AgentUpdate.mk none none none none)).2.1 rfl,
    (slack_dash_deep_copy_frame.2.2.2.2.2.2 dash
      (AgentUpdate.mk none none none none)).2.2.1 rfl,
    (slack_dash_deep_copy_frame.2.2.2.2.2.2 dash
      (AgentUpdate.mk none none none none)).2.2.2.1 rfl,
    (slack_dash_deep_copy_frame.2.2.2.2.2.2 dash
      (AgentUpdate.mk none none none none)).2.2.2.2 rfl⟩

/-- Witness for C1 at concrete statements: `select a from t limit 10` is
accepted with the guarantees, and `DE/**/LETE  from t` is rejected. -/
theorem sqlguard_validate_safe_witness :
    (hasVerbTok (SQLStatement.mk
        [.word "select", .word "a", .word "from", .word "t", .word "limit", .num 10] 10).toks
          = false ∧
      hasStarTok (SQLStatement.mk
        [.word "select", .word "a", .word "from", .word "t", .word "limit", .num 10] 10).toks
          = false ∧
      (SQLStatement.mk
        [.word "select", .word "a", .word "from", .word "t", .word "limit", .num 10] 10).rowLimit
          ≤ rowLimitCeiling) ∧
    validate rowLimitCeiling
        [.word "DE", .comment "x", .word "LETE", .space, .word "from", .space, .word "t"] =
      .error .unsafeQuery :=
  ⟨sqlguard_validate_safe.1
      [.word "select", .space, .word "a", .space, .word "from", .space,
       .word "t", .space, .word "limit", .space, .num 10]
      (SQLStatement.mk
        [.word "select", .word "a", .word "from", .word "t", .word "limit", .num 10] 10)
      (by decide),
    sqlguard_validate_safe.2
      [.word "DE", .comment "x", .word "LETE", .space, .word "from", .space, .word "t"]
      (Or.inl (by decide))⟩

end Dash
